import Mathlib

/-!
Verification of the diff engine of `container-diff` (files
`utils/fs_utils.go` and `differs/package_differs.go`) against its
natural-language specification.

Shallow embedding conventions:

* Filesystem paths are modelled as lists of path segments (`FPath`); the
  Go code's two resolution idioms — `fmt.Sprintf("%s%s", root, f)` and
  `filepath.Join(root, name)` — both become list append `root ++ f`.
* The filesystem itself is a finite tree (`FSNode`).  A `file` node
  carries its byte content (size = content length); a `dir` node carries
  a flag `ok` telling whether reading its entry list succeeds (`ok = false`
  models a `readdir` failure during `filepath.Walk`) and its children in
  the (sorted) order `filepath.Walk` visits them.  `os.Stat` on a path
  fails iff the path does not resolve in the tree.
* Go's `(T, error)` returns become `Option`-shaped values: `none` is the
  error case.  Machine `int64` sizes become `Int`.
* Functions that in Go perform I/O (`os.Stat`, `ioutil.ReadFile`) are
  threaded explicitly: directory-diff functions take `stat` and `read`
  oracles, instantiated with the tree-derived `statFS`/`readFS` for the
  real filesystem semantics.  Keeping them as parameters lets us state
  "no content read occurs" as independence from the `read` oracle.
-/

/-- A filesystem path, as the list of its segments. -/
abbrev FPath := List String

mutual

/-- A filesystem tree node: a regular file with its byte content, or a
directory with a readability flag and named children (in walk order). -/
inductive FSNode : Type where
  | file : List Nat → FSNode
  | dir : Bool → FSDir → FSNode
  deriving DecidableEq

/-- The children of a directory node. -/
inductive FSDir : Type where
  | nil : FSDir
  | cons : String → FSNode → FSDir → FSDir
  deriving DecidableEq

end

mutual

/-- Resolve a path from a node; `none` models a failing `os.Stat`. -/
def lookup : FSNode → FPath → Option FSNode
  | n, [] => some n
  | FSNode.file _, _ :: _ => none
  | FSNode.dir _ cs, seg :: rest => lookupIn cs seg rest

/-- Resolve one segment among a directory's children. -/
def lookupIn : FSDir → String → FPath → Option FSNode
  | FSDir.nil, _, _ => none
  | FSDir.cons name child rest, seg, p =>
      if name = seg then lookup child p else lookupIn rest seg p

end

/-- The part of `os.FileInfo` the code consults: `IsDir()` and `Size()`. -/
structure StatInfo where
  isDir : Bool
  size : Int
  deriving DecidableEq

/-- Stat data of a node (a directory's own stat size is irrelevant to the
code except for same/differ comparisons; we fix it to 0). -/
def statNode : FSNode → StatInfo
  | FSNode.file c => ⟨false, (c.length : Int)⟩
  | FSNode.dir _ _ => ⟨true, 0⟩

/-- `os.Stat` over the tree. -/
def statFS (fs : FSNode) (p : FPath) : Option StatInfo :=
  (lookup fs p).map statNode

/-- `ioutil.ReadFile` over the tree: succeeds exactly on regular files. -/
def readFS (fs : FSNode) (p : FPath) : Option (List Nat) :=
  match lookup fs p with
  | some (FSNode.file c) => some c
  | _ => none

mutual

/-- Embedding of the `filepath.Walk` traversal inside `getDirectorySize`
(`fs_utils.go`): depth-first over the tree, adding each non-directory's
size; a directory whose entry list cannot be read makes the callback
return the error, which aborts the whole walk.  Returns the sum
accumulated up to that point and whether an error occurred. -/
def walkSize : FSNode → Int × Bool
  | FSNode.file c => ((c.length : Int), false)
  | FSNode.dir ok cs => if ok then walkChildren cs else (0, true)

/-- Walk a directory's children left to right, stopping at the first
error. -/
def walkChildren : FSDir → Int × Bool
  | FSDir.nil => (0, false)
  | FSDir.cons _ child rest =>
      let r := walkSize child
      if r.2 then (r.1, true)
      else
        let r2 := walkChildren rest
        (r.1 + r2.1, r2.2)

end

/-- Embedding of `getDirectorySize` (`fs_utils.go` lines 48–57): walk the
tree under the node, summing sizes of non-directory entries; the `Bool`
is the error component of the Go return. -/
def getDirectorySize (n : FSNode) : Int × Bool :=
  walkSize n

/-- Embedding of `GetSize` (`fs_utils.go` lines 32–46): stat the path;
on stat error log and return -1; for a directory return the first
component of `getDirectorySize` (the error, if any, is only logged); for
a file return its stat size. -/
def GetSize (fs : FSNode) (path : FPath) : Int :=
  match statFS fs path with
  | none => -1
  | some stat =>
      if stat.isDir then
        match lookup fs path with
        | some n => (getDirectorySize n).1
        | none => -1
      else stat.size

mutual

/-- Reference function for the spec's walk result: the sum of the sizes
of all non-directory descendants of a node, directories contributing 0. -/
def totalFileSize : FSNode → Int
  | FSNode.file c => (c.length : Int)
  | FSNode.dir _ cs => totalFileSizeChildren cs

/-- Sum of `totalFileSize` over a directory's children. -/
def totalFileSizeChildren : FSDir → Int
  | FSDir.nil => 0
  | FSDir.cons _ child rest => totalFileSize child + totalFileSizeChildren rest

end

/-- Strict byte-wise (here: character-wise) ordering of strings as lists
of characters, the order `sort.Strings` sorts by. -/
def charListLt : List Char → List Char → Bool
  | _, [] => false
  | [], _ :: _ => true
  | a :: as, b :: bs =>
      if a < b then true
      else if b < a then false
      else charListLt as bs

/-- Strict ordering on strings. -/
def strLtB (s t : String) : Bool :=
  charListLt s.data t.data

/-- Lexicographic `≤` on paths; the order `sort.Strings` in
`DiffDirectory` establishes, transported to segment lists. -/
def pathLeB : FPath → FPath → Bool
  | [], _ => true
  | _ :: _, [] => false
  | a :: as, b :: bs =>
      if strLtB a b then true
      else if strLtB b a then false
      else pathLeB as bs

/-- `pathLeB` as a relation. -/
def pathLeP (a b : FPath) : Prop := pathLeB a b = true

instance decPathLeP : DecidableRel pathLeP := fun a b =>
  inferInstanceAs (Decidable (pathLeB a b = true))

/-- Modelled from the spec: the set-diff primitive `GetMatches` (its
source, `utils/diff_utils.go`, is not among the given files).  "Matches
(A,B) → elements present in both", membership-based. -/
def GetMatches (a b : List FPath) : List FPath :=
  a.filter (fun x => decide (x ∈ b))

/-- Modelled from the spec: the set-diff primitive `GetAdditions`:
"elements present in B but not A". -/
def GetAdditions (a b : List FPath) : List FPath :=
  b.filter (fun x => decide (x ∉ a))

/-- Modelled from the spec: the set-diff primitive `GetDeletions`:
"elements present in A but not B". -/
def GetDeletions (a b : List FPath) : List FPath :=
  a.filter (fun x => decide (x ∉ b))

/-- Embedding of the `Directory` struct (`fs_utils.go` lines 16–19). -/
structure Directory where
  Root : FPath
  Content : List FPath
  deriving DecidableEq

/-- Embedding of the `DirectoryEntry` struct (`fs_utils.go` 21–24). -/
structure DirectoryEntry where
  Name : FPath
  Size : Int
  deriving DecidableEq

/-- Embedding of the `EntryDiff` struct (`fs_utils.go` 26–30). -/
structure EntryDiff where
  Name : FPath
  Size1 : Int
  Size2 : Int
  deriving DecidableEq

/-- Embedding of `checkSameFile` (`fs_utils.go` lines 209–238) over
explicit `stat`/`read` oracles (the program instantiates them with
`statFS fs` and `readFS fs`): `none` models the `(false, err)` returns,
`some b` the `(b, nil)` returns.  Stat both names; on either error
return the error; if sizes differ return `false` without consulting
`read`; otherwise read both contents (propagating errors) and compare
them byte for byte. -/
def checkSameFile (stat : FPath → Option StatInfo)
    (read : FPath → Option (List Nat)) (f1name f2name : FPath) :
    Option Bool :=
  match stat f1name with
  | none => none
  | some f1stat =>
    match stat f2name with
    | none => none
    | some f2stat =>
      if f1stat.size ≠ f2stat.size then some false
      else
        match read f1name with
        | none => none
        | some f1 =>
          match read f2name with
          | none => none
          | some f2 => if f1 ≠ f2 then some false else some true

/-- The body of the `GetModifiedEntries` loop (`fs_utils.go` lines
96–131) for one matched entry `f`: `none` models the `continue`-on-error
skips, `some true` that `f` is appended to `modified`, `some false` that
the iteration falls through without appending.  Resolve `f` under both
roots, stat both (skip on either error); a tar-named entry (`isTar` on
the first resolved path) is modified iff the stat sizes differ; a
non-directory entry is modified iff `checkSameFile` answers `false`
(skip on its error); a directory entry falls through. -/
def classifyEntry (stat : FPath → Option StatInfo)
    (read : FPath → Option (List Nat)) (isTar : FPath → Bool)
    (root1 root2 : FPath) (f : FPath) : Option Bool :=
  let f1path := root1 ++ f
  let f2path := root2 ++ f
  match stat f1path with
  | none => none
  | some f1stat =>
    match stat f2path with
    | none => none
    | some f2stat =>
      if isTar f1path then some (decide (f1stat.size ≠ f2stat.size))
      else if !f1stat.isDir then
        match checkSameFile stat read f1path f2path with
        | none => none
        | some same => some (!same)
      else some false

/-- Embedding of `GetModifiedEntries` (`fs_utils.go` lines 89–133): the
matched entries, in order, that the loop appends to `modified`.  The
filename-pattern archive test `isTar` is a parameter: its source
(`utils/tar_utils.go`) is not among the given files; the spec only says
it is "determined by filename pattern, not content sniffing". -/
def GetModifiedEntries (stat : FPath → Option StatInfo)
    (read : FPath → Option (List Nat)) (isTar : FPath → Bool)
    (d1 d2 : Directory) : List FPath :=
  (GetMatches d1.Content d2.Content).filter
    (fun f => classifyEntry stat read isTar d1.Root d2.Root f = some true)

/-- Embedding of `GetAddedEntries` (`fs_utils.go` lines 135–137). -/
def GetAddedEntries (d1 d2 : Directory) : List FPath :=
  GetAdditions d1.Content d2.Content

/-- Embedding of `GetDeletedEntries` (`fs_utils.go` lines 139–141). -/
def GetDeletedEntries (d1 d2 : Directory) : List FPath :=
  GetDeletions d1.Content d2.Content

/-- Embedding of the `DirDiff` struct (`fs_utils.go` lines 143–147). -/
structure DirDiff where
  Adds : List DirectoryEntry
  Dels : List DirectoryEntry
  Mods : List EntryDiff
  deriving DecidableEq

/-- Embedding of `createDirectoryEntries` (`fs_utils.go` 153–165):
resolve each name against `root` and pair it with its `GetSize`. -/
def createDirectoryEntries (fs : FSNode) (root : FPath)
    (entryNames : List FPath) : List DirectoryEntry :=
  entryNames.map (fun name => ⟨name, GetSize fs (root ++ name)⟩)

/-- Embedding of `createEntryDiffs` (`fs_utils.go` 167–183): resolve
each name against both roots and record both sizes. -/
def createEntryDiffs (fs : FSNode) (root1 root2 : FPath)
    (entryNames : List FPath) : List EntryDiff :=
  entryNames.map
    (fun name => ⟨name, GetSize fs (root1 ++ name), GetSize fs (root2 ++ name)⟩)

/-- Embedding of `DiffDirectory` (`fs_utils.go` lines 186–207):
additions, deletions and modifications, each sorted (`sort.Strings`) and
resolved to entries with sizes; `same` is the conjunction of the three
emptiness tests. -/
def DiffDirectory (fs : FSNode) (isTar : FPath → Bool) (d1 d2 : Directory) :
    DirDiff × Bool :=
  let adds := List.insertionSort pathLeP (GetAddedEntries d1 d2)
  let addedEntries := createDirectoryEntries fs d2.Root adds
  let dels := List.insertionSort pathLeP (GetDeletedEntries d1 d2)
  let deletedEntries := createDirectoryEntries fs d1.Root dels
  let mods := List.insertionSort pathLeP
    (GetModifiedEntries (statFS fs) (readFS fs) isTar d1 d2)
  let modifiedEntries := createEntryDiffs fs d1.Root d2.Root mods
  let same := adds.isEmpty && dels.isEmpty && mods.isEmpty
  (⟨addedEntries, deletedEntries, modifiedEntries⟩, same)

/-- Embedding of the `utils.Image` collaborator: the engine only reads
its `Source` label. -/
structure Image where
  Source : String
  deriving DecidableEq

/-- Embedding of the `MultiVersionPackageAnalyzer` interface
(`package_differs.go` lines 9–12).  The inventory type `π` abstracts
`map[string]map[string]utils.PackageInfo`; `getPackages` may fail. -/
structure MultiVersionPackageAnalyzer (ε π : Type) where
  getPackages : Image → Except ε π
  Name : String

/-- Embedding of the `SingleVersionPackageAnalyzer` interface
(`package_differs.go` lines 14–17), `π` abstracting
`map[string]utils.PackageInfo`. -/
structure SingleVersionPackageAnalyzer (ε π : Type) where
  getPackages : Image → Except ε π
  Name : String

/-- Embedding of `utils.MultiVersionPackageDiffResult`, with abstract
diff payload `δ`; its Go zero value has empty strings and the zero
payload (`Inhabited.default`). -/
structure MultiVersionPackageDiffResult (δ : Type) where
  Image1 : String
  Image2 : String
  DiffType : String
  Diff : δ
  deriving DecidableEq

/-- Embedding of `utils.SingleVersionPackageDiffResult`, with abstract
diff payload `δ`. -/
structure SingleVersionPackageDiffResult (δ : Type) where
  Image1 : String
  Image2 : String
  DiffType : String
  Diff : δ
  deriving DecidableEq

/-- Embedding of `strings.TrimSuffix`: drop the given suffix when
present, otherwise return the string unchanged (stated over the
character lists so that it evaluates by kernel reduction). -/
def trimSuffix (s suffix : String) : String :=
  if suffix.data.isSuffixOf s.data then
    ⟨s.data.take (s.data.length - suffix.data.length)⟩
  else s

/-- Embedding of `multiVersionDiff` (`package_differs.go` lines 19–36)
over explicit error/inventory/diff types.  The map-diff computation
`utils.GetMultiVersionMapDiff` is not among the given files, so it is a
parameter `getMultiVersionMapDiff`.  The Go function returns a pointer
and an error; the pointer becomes the `Option` in the first component
(`some` of the zero-value struct on fetch failure — never `none`), the
error the second. -/
def multiVersionDiff {ε π δ : Type} [Inhabited δ]
    (getMultiVersionMapDiff : π → π → δ) (image1 image2 : Image)
    (differ : MultiVersionPackageAnalyzer ε π) :
    Option (MultiVersionPackageDiffResult δ) × Option ε :=
  match differ.getPackages image1 with
  | Except.error err => (some ⟨"", "", "", default⟩, some err)
  | Except.ok pack1 =>
    match differ.getPackages image2 with
    | Except.error err => (some ⟨"", "", "", default⟩, some err)
    | Except.ok pack2 =>
      (some ⟨image1.Source, image2.Source, trimSuffix differ.Name "Analyzer",
        getMultiVersionMapDiff pack1 pack2⟩, none)

/-- Embedding of `singleVersionDiff` (`package_differs.go` lines 38–55),
with `utils.GetMapDiff` as the parameter `getMapDiff`. -/
def singleVersionDiff {ε π δ : Type} [Inhabited δ]
    (getMapDiff : π → π → δ) (image1 image2 : Image)
    (differ : SingleVersionPackageAnalyzer ε π) :
    Option (SingleVersionPackageDiffResult δ) × Option ε :=
  match differ.getPackages image1 with
  | Except.error err => (some ⟨"", "", "", default⟩, some err)
  | Except.ok pack1 =>
    match differ.getPackages image2 with
    | Except.error err => (some ⟨"", "", "", default⟩, some err)
    | Except.ok pack2 =>
      (some ⟨image1.Source, image2.Source, trimSuffix differ.Name "Analyzer",
        getMapDiff pack1 pack2⟩, none)

/-- The images passed to `differ.getPackages`, in invocation order,
along `multiVersionDiff`'s control flow (`package_differs.go` 19–36):
`image1` is always fetched; `image2` only when the first fetch
succeeded. -/
def multiVersionDiffCalls {ε π : Type} (image1 image2 : Image)
    (differ : MultiVersionPackageAnalyzer ε π) : List Image :=
  match differ.getPackages image1 with
  | Except.error _ => [image1]
  | Except.ok _ => [image1, image2]

/-- The images passed to `differ.getPackages`, in invocation order,
along `singleVersionDiff`'s control flow (`package_differs.go` 38–55). -/
def singleVersionDiffCalls {ε π : Type} (image1 image2 : Image)
    (differ : SingleVersionPackageAnalyzer ε π) : List Image :=
  match differ.getPackages image1 with
  | Except.error _ => [image1]
  | Except.ok _ => [image1, image2]

theorem charListLt_conn : ∀ {x y : List Char}, charListLt x y = false →
    charListLt y x = false → x = y
  | [], [], _, _ => rfl
  | [], _ :: _, h1, _ => by simp [charListLt] at h1
  | _ :: _, [], _, h2 => by simp [charListLt] at h2
  | a :: as, b :: bs, h1, h2 => by
      by_cases hab : a < b
      · simp [charListLt, hab] at h1
      · by_cases hba : b < a
        · simp [charListLt, hab, hba] at h2
        · have hab' : a = b := le_antisymm (le_of_not_lt hba) (le_of_not_lt hab)
          simp [charListLt, hab, hba] at h1 h2
          simp [hab', charListLt_conn h1 h2]

theorem charListLt_trans : ∀ {x y z : List Char}, charListLt x y = true →
    charListLt y z = true → charListLt x z = true
  | _, [], _, h1, _ => by simp [charListLt] at h1
  | _, _ :: _, [], _, h2 => by simp [charListLt] at h2
  | [], _ :: _, _ :: _, _, _ => by simp [charListLt]
  | a :: as, b :: bs, c :: cs, h1, h2 => by
      by_cases hab : a < b
      · by_cases hbc : b < c
        · simp [charListLt, lt_trans hab hbc]
        · by_cases hcb : c < b
          · simp [charListLt, hbc, hcb] at h2
          · have hbc' : b = c := le_antisymm (le_of_not_lt hcb) (le_of_not_lt hbc)
            simp [charListLt, hbc' ▸ hab]
      · by_cases hba : b < a
        · simp [charListLt, hab, hba] at h1
        · have hab' : a = b := le_antisymm (le_of_not_lt hba) (le_of_not_lt hab)
          subst hab'
          by_cases hac : a < c
          · simp [charListLt, hac]
          · by_cases hca : c < a
            · simp [charListLt, hac, hca] at h2
            · simp [charListLt, hab, hac, hca] at h1 h2 ⊢
              exact charListLt_trans h1 h2

theorem strLtB_conn {s t : String} (h1 : strLtB s t = false)
    (h2 : strLtB t s = false) : s = t := by
  cases s with
  | mk ls =>
    cases t with
    | mk lt' => exact congrArg String.mk (charListLt_conn h1 h2)

theorem strLtB_trans {s t u : String} (h1 : strLtB s t = true)
    (h2 : strLtB t u = true) : strLtB s u = true :=
  charListLt_trans h1 h2

theorem pathLeB_total : ∀ a b : FPath, pathLeB a b = true ∨ pathLeB b a = true
  | [], _ => Or.inl rfl
  | _ :: _, [] => Or.inr rfl
  | a :: as, b :: bs => by
      by_cases hab : strLtB a b = true
      · exact Or.inl (by simp [pathLeB, hab])
      · by_cases hba : strLtB b a = true
        · exact Or.inr (by simp [pathLeB, hba])
        · have hab' : a = b :=
            strLtB_conn (Bool.eq_false_iff.mpr hab) (Bool.eq_false_iff.mpr hba)
          subst hab'
          rcases pathLeB_total as bs with h | h
          · exact Or.inl (by simp [pathLeB, hab, h])
          · exact Or.inr (by simp [pathLeB, hab, h])

theorem pathLeB_trans : ∀ {a b c : FPath}, pathLeB a b = true →
    pathLeB b c = true → pathLeB a c = true
  | [], _, _, _, _ => rfl
  | _ :: _, [], _, h1, _ => by simp [pathLeB] at h1
  | _ :: _, _ :: _, [], _, h2 => by simp [pathLeB] at h2
  | a :: as, b :: bs, c :: cs, h1, h2 => by
      by_cases hab : strLtB a b = true
      · by_cases hbc : strLtB b c = true
        · simp [pathLeB, strLtB_trans hab hbc]
        · by_cases hcb : strLtB c b = true
          · simp [pathLeB, hbc, hcb] at h2
          · have hbc' : b = c :=
              strLtB_conn (Bool.eq_false_iff.mpr hbc) (Bool.eq_false_iff.mpr hcb)
            simp [pathLeB, hbc' ▸ hab]
      · by_cases hba : strLtB b a = true
        · simp [pathLeB, hab, hba] at h1
        · have hab' : a = b :=
            strLtB_conn (Bool.eq_false_iff.mpr hab) (Bool.eq_false_iff.mpr hba)
          subst hab'
          by_cases hac : strLtB a c = true
          · simp [pathLeB, hac]
          · by_cases hca : strLtB c a = true
            · simp [pathLeB, hac, hca] at h2
            · simp [pathLeB, hab, hac, hca] at h1 h2 ⊢
              exact pathLeB_trans h1 h2

instance instTotalPathLeP : IsTotal FPath pathLeP :=
  ⟨pathLeB_total⟩

instance instTransPathLeP : IsTrans FPath pathLeP :=
  ⟨fun _ _ _ => pathLeB_trans⟩

mutual

theorem walkSize_noerr : ∀ n : FSNode, (walkSize n).2 = false →
    (walkSize n).1 = totalFileSize n
  | FSNode.file _, _ => rfl
  | FSNode.dir ok cs, h => by
      cases ok with
      | false => simp [walkSize] at h
      | true =>
          simp only [walkSize, if_true] at h ⊢
          exact walkChildren_noerr cs h

theorem walkChildren_noerr : ∀ d : FSDir, (walkChildren d).2 = false →
    (walkChildren d).1 = totalFileSizeChildren d
  | FSDir.nil, _ => rfl
  | FSDir.cons name child rest, h => by
      by_cases hc : (walkSize child).2 = true
      · simp [walkChildren, hc] at h
      · simp only [walkChildren, hc, if_false, Bool.not_eq_true] at h ⊢
        simp only [Bool.not_eq_true] at hc
        simp [totalFileSizeChildren, walkSize_noerr child hc,
          walkChildren_noerr rest h]

end

/-- Claim C1 (amended): `GetSize` returns -1 when stating the path
fails; the stat size of a non-directory; and for a directory the first
component of the `getDirectorySize` walk — which, when the walk
completes without error, is the recursive sum of the sizes of all
non-directory descendants (directories contributing 0), but on a walk
error is the partial sum accumulated before the error (only logged),
not the sentinel -1. -/
theorem claimC1_amended (fs : FSNode) (p : FPath) :
    (lookup fs p = none → GetSize fs p = -1) ∧
    (∀ c, lookup fs p = some (FSNode.file c) → GetSize fs p = (c.length : Int)) ∧
    (∀ n, lookup fs p = some n → (statNode n).isDir = true →
      (getDirectorySize n).2 = false → GetSize fs p = totalFileSize n) ∧
    (∀ n, lookup fs p = some n → (statNode n).isDir = true →
      GetSize fs p = (getDirectorySize n).1) := by
  refine ⟨fun h => ?_, fun c h => ?_, fun n h hd hw => ?_, fun n h hd => ?_⟩
  · simp [GetSize, statFS, h]
  · simp [GetSize, statFS, h, statNode]
  · simp [GetSize, statFS, h, hd, getDirectorySize]
    exact walkSize_noerr n hw
  · simp [GetSize, statFS, h, hd]

/-- Filesystem for exercising `GetSize` walk errors: a readable
directory holding file `a` (3 bytes), an unreadable subdirectory `b`,
and file `c` (1 byte) that the aborted walk never reaches. -/
def fsWalkErr : FSNode :=
  FSNode.dir true (FSDir.cons "a" (FSNode.file [0, 0, 0])
    (FSDir.cons "b" (FSNode.dir false FSDir.nil)
      (FSDir.cons "c" (FSNode.file [7]) FSDir.nil)))

/-- A small filesystem whose walk succeeds: files `a` (2 bytes) and a
subdirectory `sub` holding `b` (3 bytes). -/
def fsOk : FSNode :=
  FSNode.dir true (FSDir.cons "a" (FSNode.file [1, 2])
    (FSDir.cons "sub"
      (FSNode.dir true (FSDir.cons "b" (FSNode.file [1, 2, 3]) FSDir.nil))
      FSDir.nil))

/-- Claim C1 counterexample: on `fsWalkErr` the directory walk errors
(at the unreadable subdirectory `b`), yet `GetSize` returns the partial
sum 3 — the size of `a` accumulated before the error — and not the
sentinel -1 the claim requires on any walk error. -/
theorem claimC1_counterexample :
    (getDirectorySize fsWalkErr).2 = true ∧ GetSize fsWalkErr [] = 3 ∧
      GetSize fsWalkErr [] ≠ -1 := by decide

/-- Concrete instance of the amended Claim C1, exercising all four
branches: missing path, plain file, error-free directory walk, and
errored directory walk. -/
theorem claimC1_witness :
    GetSize fsOk ["missing"] = -1 ∧
    GetSize fsOk ["a"] = ((2 : Nat) : Int) ∧
    GetSize fsOk [] = totalFileSize fsOk ∧
    GetSize fsWalkErr [] = (getDirectorySize fsWalkErr).1 :=
  ⟨(claimC1_amended fsOk ["missing"]).1 (by decide),
   (claimC1_amended fsOk ["a"]).2.1 [1, 2] (by decide),
   (claimC1_amended fsOk []).2.2.1 fsOk (by decide) (by decide) (by decide),
   (claimC1_amended fsWalkErr []).2.2.2 fsWalkErr (by decide) (by decide)⟩

theorem mem_getModifiedEntries {stat : FPath → Option StatInfo}
    {read : FPath → Option (List Nat)} {isTar : FPath → Bool}
    {d1 d2 : Directory} {f : FPath} :
    f ∈ GetModifiedEntries stat read isTar d1 d2 ↔
      f ∈ GetMatches d1.Content d2.Content ∧
        classifyEntry stat read isTar d1.Root d2.Root f = some true := by
  simp [GetModifiedEntries, List.mem_filter]

theorem classifyEntry_self_ne_true (stat : FPath → Option StatInfo)
    (read : FPath → Option (List Nat)) (isTar : FPath → Bool)
    (root f : FPath) :
    classifyEntry stat read isTar root root f ≠ some true := by
  unfold classifyEntry
  cases h1 : stat (root ++ f) with
  | none => simp [h1]
  | some s =>
    by_cases ht : isTar (root ++ f)
    · simp [h1, ht]
    · by_cases hd : s.isDir
      · simp [h1, ht, hd]
      · unfold checkSameFile
        cases hr : read (root ++ f) with
        | none => simp [h1, ht, hd, hr]
        | some c => simp [h1, ht, hd, hr]

/-- Claim C8: diffing a directory snapshot against itself yields empty
added, deleted and modified sequences and `same = true`, whatever the
filesystem and archive-name predicate. -/
theorem claimC8 (fs : FSNode) (isTar : FPath → Bool) (d : Directory) :
    DiffDirectory fs isTar d d = (⟨[], [], []⟩, true) := by
  have hadds : GetAddedEntries d d = [] := by
    simp [GetAddedEntries, GetAdditions, List.filter_eq_nil_iff]
  have hdels : GetDeletedEntries d d = [] := by
    simp [GetDeletedEntries, GetDeletions, List.filter_eq_nil_iff]
  have hmods : GetModifiedEntries (statFS fs) (readFS fs) isTar d d = [] := by
    simp only [GetModifiedEntries, List.filter_eq_nil_iff]
    intro f _
    simpa using classifyEntry_self_ne_true (statFS fs) (readFS fs) isTar d.Root f
  simp [DiffDirectory, hadds, hdels, hmods, createDirectoryEntries,
    createEntryDiffs, List.insertionSort]

/-- Claim C6: the boolean `same` returned by `DiffDirectory` is `true`
iff the added, deleted and modified sequences of the returned `DirDiff`
are all empty. -/
theorem claimC6 (fs : FSNode) (isTar : FPath → Bool) (d1 d2 : Directory) :
    (DiffDirectory fs isTar d1 d2).2 = true ↔
      ((DiffDirectory fs isTar d1 d2).1.Adds = [] ∧
       (DiffDirectory fs isTar d1 d2).1.Dels = [] ∧
       (DiffDirectory fs isTar d1 d2).1.Mods = []) := by
  simp [DiffDirectory, createDirectoryEntries, createEntryDiffs,
    List.isEmpty_iff, List.map_eq_nil_iff, Bool.and_eq_true, and_assoc]

/-- Claim C2: a matched entry whose path resolved under the first root
has a recognized archive filename is classified by stat size alone — it
is in the modified list iff the two stat sizes differ — and its
classification does not depend on the content-read oracle at all (no
content read occurs for archives). -/
theorem claimC2 (fs : FSNode) (isTar : FPath → Bool) (d1 d2 : Directory)
    (f : FPath) (s1 s2 : StatInfo)
    (hmem : f ∈ GetMatches d1.Content d2.Content)
    (htar : isTar (d1.Root ++ f) = true)
    (h1 : statFS fs (d1.Root ++ f) = some s1)
    (h2 : statFS fs (d2.Root ++ f) = some s2) :
    (f ∈ GetModifiedEntries (statFS fs) (readFS fs) isTar d1 d2 ↔
      s1.size ≠ s2.size) ∧
    (∀ read read' : FPath → Option (List Nat),
      (f ∈ GetModifiedEntries (statFS fs) read isTar d1 d2 ↔
       f ∈ GetModifiedEntries (statFS fs) read' isTar d1 d2)) := by
  have hcls : ∀ read : FPath → Option (List Nat),
      classifyEntry (statFS fs) read isTar d1.Root d2.Root f = some true ↔
        s1.size ≠ s2.size := by
    intro read
    unfold classifyEntry
    simp [h1, h2, htar]
  constructor
  · rw [mem_getModifiedEntries]
    simp [hcls, hmem]
  · intro read read'
    rw [mem_getModifiedEntries, mem_getModifiedEntries]
    constructor
    · rintro ⟨hm, hc⟩
      exact ⟨hm, ((hcls read').mpr ((hcls read).mp hc))⟩
    · rintro ⟨hm, hc⟩
      exact ⟨hm, ((hcls read).mpr ((hcls read').mp hc))⟩

/-- Claim C4: a matched non-archive entry that is a regular file under
both roots is in the modified list iff the files' sizes differ or their
byte contents differ; and, in general, whenever the two stat sizes
differ `checkSameFile` answers `false` without consulting the
content-read oracle (short-circuit before the content read). -/
theorem claimC4 (fs : FSNode) (isTar : FPath → Bool) (d1 d2 : Directory)
    (f : FPath) (c1 c2 : List Nat)
    (hmem : f ∈ GetMatches d1.Content d2.Content)
    (htar : isTar (d1.Root ++ f) = false)
    (h1 : lookup fs (d1.Root ++ f) = some (FSNode.file c1))
    (h2 : lookup fs (d2.Root ++ f) = some (FSNode.file c2)) :
    (f ∈ GetModifiedEntries (statFS fs) (readFS fs) isTar d1 d2 ↔
      (c1.length ≠ c2.length ∨ c1 ≠ c2)) ∧
    (∀ (stat : FPath → Option StatInfo) (read read' : FPath → Option (List Nat))
       (p1 p2 : FPath) (t1 t2 : StatInfo), stat p1 = some t1 →
       stat p2 = some t2 → t1.size ≠ t2.size →
       checkSameFile stat read p1 p2 = some false ∧
       checkSameFile stat read p1 p2 = checkSameFile stat read' p1 p2) := by
  constructor
  · have hs1 : statFS fs (d1.Root ++ f) = some ⟨false, (c1.length : Int)⟩ := by
      simp [statFS, h1, statNode]
    have hs2 : statFS fs (d2.Root ++ f) = some ⟨false, (c2.length : Int)⟩ := by
      simp [statFS, h2, statNode]
    have hr1 : readFS fs (d1.Root ++ f) = some c1 := by simp [readFS, h1]
    have hr2 : readFS fs (d2.Root ++ f) = some c2 := by simp [readFS, h2]
    rw [mem_getModifiedEntries]
    unfold classifyEntry checkSameFile
    by_cases hl : (c1.length : Int) = (c2.length : Int)
    · by_cases hc : c1 = c2
      · simp [hs1, hs2, hr1, hr2, htar, hl, hc]
      · simp [hs1, hs2, hr1, hr2, htar, hl, hc, hmem]
    · have hln : c1.length ≠ c2.length := by
        intro h
        exact hl (congrArg Nat.cast h)
      simp [hs1, hs2, htar, hl, hmem, hln]
  · intro stat read read' p1 p2 t1 t2 ht1 ht2 hne
    unfold checkSameFile
    simp [ht1, ht2, hne]

/-- Claim C5: for a matched entry, if stating either resolved path
fails, or the entry is a non-archive non-directory whose byte-content
comparison fails, the entry is excluded from the modified list, and
every other entry is still classified exactly by its own loop-body
outcome — the failure never aborts the diff or surfaces in the result. -/
theorem claimC5 (stat : FPath → Option StatInfo)
    (read : FPath → Option (List Nat)) (isTar : FPath → Bool)
    (d1 d2 : Directory) (f : FPath)
    (hmem : f ∈ GetMatches d1.Content d2.Content)
    (herr : stat (d1.Root ++ f) = none ∨ stat (d2.Root ++ f) = none ∨
      (isTar (d1.Root ++ f) = false ∧
       (∀ s, stat (d1.Root ++ f) = some s → s.isDir = false) ∧
       checkSameFile stat read (d1.Root ++ f) (d2.Root ++ f) = none)) :
    f ∉ GetModifiedEntries stat read isTar d1 d2 ∧
    (∀ g, g ≠ f →
      (g ∈ GetModifiedEntries stat read isTar d1 d2 ↔
        g ∈ GetMatches d1.Content d2.Content ∧
          classifyEntry stat read isTar d1.Root d2.Root g = some true)) := by
  have hnone : classifyEntry stat read isTar d1.Root d2.Root f = none := by
    rcases herr with h | h | ⟨ht, hnd, hcsf⟩
    · unfold classifyEntry
      simp [h]
    · unfold classifyEntry
      cases hs1 : stat (d1.Root ++ f) with
      | none => simp [hs1]
      | some s => simp [hs1, h]
    · unfold classifyEntry
      cases hs1 : stat (d1.Root ++ f) with
      | none => simp [hs1]
      | some s =>
        cases hs2 : stat (d2.Root ++ f) with
        | none => simp [hs1, hs2]
        | some s2 => simp [hs1, hs2, ht, hnd s hs1, hcsf]
  constructor
  · rw [mem_getModifiedEntries]
    simp [hnone]
  · intro g _
    exact mem_getModifiedEntries

/-- Claim C9: only the stat under the first snapshot's root decides the
directory skip — a matched non-archive entry that is a directory in the
first snapshot is never reported modified, whatever the same relative
path is in the second snapshot. -/
theorem claimC9 (fs : FSNode) (isTar : FPath → Bool) (d1 d2 : Directory)
    (f : FPath) (ok : Bool) (cs : FSDir)
    (htar : isTar (d1.Root ++ f) = false)
    (h1 : lookup fs (d1.Root ++ f) = some (FSNode.dir ok cs)) :
    f ∉ GetModifiedEntries (statFS fs) (readFS fs) isTar d1 d2 := by
  rw [mem_getModifiedEntries]
  rintro ⟨-, hcl⟩
  have hs1 : statFS fs (d1.Root ++ f) = some ⟨true, 0⟩ := by
    simp [statFS, h1, statNode]
  revert hcl
  unfold classifyEntry
  cases hs2 : statFS fs (d2.Root ++ f) with
  | none => simp [hs1, hs2]
  | some s2 => simp [hs1, hs2, htar]

theorem map_name_createDirectoryEntries (fs : FSNode) (root : FPath)
    (names : List FPath) :
    (createDirectoryEntries fs root names).map DirectoryEntry.Name = names := by
  simp [createDirectoryEntries, List.map_map, Function.comp_def]

theorem map_name_createEntryDiffs (fs : FSNode) (root1 root2 : FPath)
    (names : List FPath) :
    (createEntryDiffs fs root1 root2 names).map EntryDiff.Name = names := by
  simp [createEntryDiffs, List.map_map, Function.comp_def]

theorem mem_createDirectoryEntries {fs : FSNode} {root : FPath}
    {names : List FPath} {e : DirectoryEntry}
    (he : e ∈ createDirectoryEntries fs root names) :
    e.Size = GetSize fs (root ++ e.Name) := by
  simp only [createDirectoryEntries, List.mem_map] at he
  obtain ⟨n, -, rfl⟩ := he
  rfl

theorem mem_createEntryDiffs {fs : FSNode} {root1 root2 : FPath}
    {names : List FPath} {e : EntryDiff}
    (he : e ∈ createEntryDiffs fs root1 root2 names) :
    e.Size1 = GetSize fs (root1 ++ e.Name) ∧
      e.Size2 = GetSize fs (root2 ++ e.Name) := by
  simp only [createEntryDiffs, List.mem_map] at he
  obtain ⟨n, -, rfl⟩ := he
  exact ⟨rfl, rfl⟩

/-- Claim C7: `DiffDirectory` returns its added, deleted and modified
sequences sorted lexicographically by entry name; each added entry's
size is resolved against the second snapshot's root, each deleted
entry's size against the first snapshot's root, and each modified entry
carries the sizes under both roots. -/
theorem claimC7 (fs : FSNode) (isTar : FPath → Bool) (d1 d2 : Directory) :
    List.Sorted pathLeP
      (((DiffDirectory fs isTar d1 d2).1.Adds).map DirectoryEntry.Name) ∧
    (∀ e ∈ (DiffDirectory fs isTar d1 d2).1.Adds,
      e.Size = GetSize fs (d2.Root ++ e.Name)) ∧
    List.Sorted pathLeP
      (((DiffDirectory fs isTar d1 d2).1.Dels).map DirectoryEntry.Name) ∧
    (∀ e ∈ (DiffDirectory fs isTar d1 d2).1.Dels,
      e.Size = GetSize fs (d1.Root ++ e.Name)) ∧
    List.Sorted pathLeP
      (((DiffDirectory fs isTar d1 d2).1.Mods).map EntryDiff.Name) ∧
    (∀ e ∈ (DiffDirectory fs isTar d1 d2).1.Mods,
      e.Size1 = GetSize fs (d1.Root ++ e.Name) ∧
      e.Size2 = GetSize fs (d2.Root ++ e.Name)) := by
  refine ⟨?_, fun e he => ?_, ?_, fun e he => ?_, ?_, fun e he => ?_⟩
  · rw [show (DiffDirectory fs isTar d1 d2).1.Adds =
        createDirectoryEntries fs d2.Root
          (List.insertionSort pathLeP (GetAddedEntries d1 d2)) from rfl,
      map_name_createDirectoryEntries]
    exact List.sorted_insertionSort pathLeP _
  · exact mem_createDirectoryEntries he
  · rw [show (DiffDirectory fs isTar d1 d2).1.Dels =
        createDirectoryEntries fs d1.Root
          (List.insertionSort pathLeP (GetDeletedEntries d1 d2)) from rfl,
      map_name_createDirectoryEntries]
    exact List.sorted_insertionSort pathLeP _
  · exact mem_createDirectoryEntries he
  · rw [show (DiffDirectory fs isTar d1 d2).1.Mods =
        createEntryDiffs fs d1.Root d2.Root
          (List.insertionSort pathLeP
            (GetModifiedEntries (statFS fs) (readFS fs) isTar d1 d2)) from rfl,
      map_name_createEntryDiffs]
    exact List.sorted_insertionSort pathLeP _
  · exact mem_createEntryDiffs he

/-- Claim C3: in `multiVersionDiff` and `singleVersionDiff`, a failing
inventory fetch for either image makes the function return that fetch
error together with the zero-value result struct (the pointer is never
nil, modelled as the first component never being `none`); on success the
error is nil and the result carries both image sources, the
Analyzer-stripped label and the computed diff. -/
theorem claimC3 {ε π δ : Type} [Inhabited δ] (g : π → π → δ)
    (i1 i2 : Image) (dm : MultiVersionPackageAnalyzer ε π)
    (ds : SingleVersionPackageAnalyzer ε π) :
    (∀ e, dm.getPackages i1 = Except.error e →
      multiVersionDiff g i1 i2 dm = (some ⟨"", "", "", default⟩, some e)) ∧
    (∀ p1 e, dm.getPackages i1 = Except.ok p1 →
      dm.getPackages i2 = Except.error e →
      multiVersionDiff g i1 i2 dm = (some ⟨"", "", "", default⟩, some e)) ∧
    (∀ p1 p2, dm.getPackages i1 = Except.ok p1 →
      dm.getPackages i2 = Except.ok p2 →
      multiVersionDiff g i1 i2 dm =
        (some ⟨i1.Source, i2.Source, trimSuffix dm.Name "Analyzer", g p1 p2⟩,
          none)) ∧
    (∀ e, ds.getPackages i1 = Except.error e →
      singleVersionDiff g i1 i2 ds = (some ⟨"", "", "", default⟩, some e)) ∧
    (∀ p1 e, ds.getPackages i1 = Except.ok p1 →
      ds.getPackages i2 = Except.error e →
      singleVersionDiff g i1 i2 ds = (some ⟨"", "", "", default⟩, some e)) ∧
    (∀ p1 p2, ds.getPackages i1 = Except.ok p1 →
      ds.getPackages i2 = Except.ok p2 →
      singleVersionDiff g i1 i2 ds =
        (some ⟨i1.Source, i2.Source, trimSuffix ds.Name "Analyzer", g p1 p2⟩,
          none)) ∧
    (multiVersionDiff g i1 i2 dm).1 ≠ none ∧
    (singleVersionDiff g i1 i2 ds).1 ≠ none := by
  refine ⟨fun e h => ?_, fun p1 e h1 h2 => ?_, fun p1 p2 h1 h2 => ?_,
    fun e h => ?_, fun p1 e h1 h2 => ?_, fun p1 p2 h1 h2 => ?_, ?_, ?_⟩
  · simp [multiVersionDiff, h]
  · simp [multiVersionDiff, h1, h2]
  · simp [multiVersionDiff, h1, h2]
  · simp [singleVersionDiff, h]
  · simp [singleVersionDiff, h1, h2]
  · simp [singleVersionDiff, h1, h2]
  · unfold multiVersionDiff
    cases dm.getPackages i1 with
    | error e => simp
    | ok p1 =>
      cases dm.getPackages i2 with
      | error e => simp
      | ok p2 => simp
  · unfold singleVersionDiff
    cases ds.getPackages i1 with
    | error e => simp
    | ok p1 =>
      cases ds.getPackages i2 with
      | error e => simp
      | ok p2 => simp

/-- Claim C10: when fetching the first image's inventory fails, the
second image's inventory is never fetched: the invocation trace of
`getPackages` along both differs' control flow is exactly `[image1]`,
and the result of `multiVersionDiff`/`singleVersionDiff` does not depend
on anything else about the analyzer. -/
theorem claimC10 {ε π δ : Type} [Inhabited δ] (g : π → π → δ)
    (i1 i2 : Image) (dm : MultiVersionPackageAnalyzer ε π)
    (ds : SingleVersionPackageAnalyzer ε π) (e e' : ε)
    (h1 : dm.getPackages i1 = Except.error e)
    (h2 : ds.getPackages i1 = Except.error e') :
    multiVersionDiffCalls i1 i2 dm = [i1] ∧
    singleVersionDiffCalls i1 i2 ds = [i1] ∧
    (∀ dm' : MultiVersionPackageAnalyzer ε π,
      dm'.getPackages i1 = Except.error e →
      multiVersionDiff g i1 i2 dm' = multiVersionDiff g i1 i2 dm) ∧
    (∀ ds' : SingleVersionPackageAnalyzer ε π,
      ds'.getPackages i1 = Except.error e' →
      singleVersionDiff g i1 i2 ds' = singleVersionDiff g i1 i2 ds) := by
  refine ⟨?_, ?_, fun dm' h => ?_, fun ds' h => ?_⟩
  · simp [multiVersionDiffCalls, h1]
  · simp [singleVersionDiffCalls, h2]
  · simp [multiVersionDiff, h, h1]
  · simp [singleVersionDiff, h, h2]

/-- Two roots holding same-sized tar-named archives with different
contents. -/
def fsTar : FSNode :=
  FSNode.dir true (FSDir.cons "r1"
    (FSNode.dir true (FSDir.cons "x.tar" (FSNode.file [1, 2, 3]) FSDir.nil))
    (FSDir.cons "r2"
      (FSNode.dir true (FSDir.cons "x.tar" (FSNode.file [4, 5, 6]) FSDir.nil))
      FSDir.nil))

/-- Archive-name predicate for the concrete examples: recognizes the one
resolved path `r1/x.tar`. -/
def isTarW (p : FPath) : Bool :=
  decide (p = ["r1", "x.tar"])

/-- Concrete instance of Claim C2: the two `x.tar` archives have equal
size 3 but different bytes, and the entry is not reported modified. -/
theorem claimC2_witness :
    ["x.tar"] ∉ GetModifiedEntries (statFS fsTar) (readFS fsTar) isTarW
      ⟨["r1"], [["x.tar"]]⟩ ⟨["r2"], [["x.tar"]]⟩ := by
  have h := (claimC2 fsTar isTarW ⟨["r1"], [["x.tar"]]⟩ ⟨["r2"], [["x.tar"]]⟩
    ["x.tar"] ⟨false, 3⟩ ⟨false, 3⟩ (by decide) (by decide) (by decide)
    (by decide)).1
  intro hm
  exact h.mp hm rfl

/-- Two roots holding same-sized ordinary files with different bytes. -/
def fsFiles : FSNode :=
  FSNode.dir true (FSDir.cons "r1"
    (FSNode.dir true (FSDir.cons "gone" (FSNode.file [])
      (FSDir.cons "x" (FSNode.file [1, 2, 3]) FSDir.nil)))
    (FSDir.cons "r2"
      (FSNode.dir true (FSDir.cons "x" (FSNode.file [4, 5, 6]) FSDir.nil))
      FSDir.nil))

/-- Concrete instance of Claim C4: the two `x` files have equal size but
different bytes, so the entry is reported modified; and a stat oracle
reporting different sizes makes `checkSameFile` answer `false` whatever
the read oracle does. -/
theorem claimC4_witness :
    ["x"] ∈ GetModifiedEntries (statFS fsFiles) (readFS fsFiles)
      (fun _ => false) ⟨["r1"], [["x"]]⟩ ⟨["r2"], [["x"]]⟩ ∧
    checkSameFile (fun p => some ⟨false, if p = ["a"] then 1 else 2⟩)
      (fun _ => none) ["a"] ["b"] = some false := by
  have h := claimC4 fsFiles (fun _ => false) ⟨["r1"], [["x"]]⟩
    ⟨["r2"], [["x"]]⟩ ["x"] [1, 2, 3] [4, 5, 6] (by decide) rfl (by decide)
    (by decide)
  refine ⟨h.1.mpr (Or.inr (by decide)), ?_⟩
  exact (h.2 (fun p => some ⟨false, if p = ["a"] then 1 else 2⟩)
    (fun _ => none) (fun _ => none) ["a"] ["b"] ⟨false, 1⟩ ⟨false, 2⟩
    (by decide) (by decide) (by decide)).1

/-- Concrete instance of Claim C5: entry `gone` exists only under the
first root, so its second stat fails and it is skipped, while the
matched entry `x` (different bytes) is still reported modified. -/
theorem claimC5_witness :
    ["gone"] ∉ GetModifiedEntries (statFS fsFiles) (readFS fsFiles)
      (fun _ => false) ⟨["r1"], [["gone"], ["x"]]⟩
      ⟨["r2"], [["gone"], ["x"]]⟩ ∧
    ["x"] ∈ GetModifiedEntries (statFS fsFiles) (readFS fsFiles)
      (fun _ => false) ⟨["r1"], [["gone"], ["x"]]⟩
      ⟨["r2"], [["gone"], ["x"]]⟩ := by
  have h := claimC5 (statFS fsFiles) (readFS fsFiles) (fun _ => false)
    ⟨["r1"], [["gone"], ["x"]]⟩ ⟨["r2"], [["gone"], ["x"]]⟩ ["gone"]
    (by decide) (Or.inr (Or.inl (by decide)))
  exact ⟨h.1, (h.2 ["x"] (by decide)).mpr ⟨by decide, by decide⟩⟩

/-- A tree where relative path `x` is a directory under the first root
but a regular file with different content under the second. -/
def fsMix : FSNode :=
  FSNode.dir true (FSDir.cons "r1"
    (FSNode.dir true (FSDir.cons "x"
      (FSNode.dir true (FSDir.cons "y" (FSNode.file [9]) FSDir.nil))
      FSDir.nil))
    (FSDir.cons "r2"
      (FSNode.dir true (FSDir.cons "x" (FSNode.file [1]) FSDir.nil))
      FSDir.nil))

/-- Concrete instance of Claim C9: `x` is a directory in the first
snapshot, so it is skipped although it is a file with other content in
the second snapshot. -/
theorem claimC9_witness :
    ["x"] ∉ GetModifiedEntries (statFS fsMix) (readFS fsMix)
      (fun _ => false) ⟨["r1"], [["x"]]⟩ ⟨["r2"], [["x"]]⟩ :=
  claimC9 fsMix (fun _ => false) ⟨["r1"], [["x"]]⟩ ⟨["r2"], [["x"]]⟩ ["x"]
    true (FSDir.cons "y" (FSNode.file [9]) FSDir.nil) (by decide) (by decide)

/-- A pair of snapshots with one addition (`d`), one deletion (`b`) and
one modification (`m`, same size, different bytes). -/
def fsC7 : FSNode :=
  FSNode.dir true (FSDir.cons "r1"
    (FSNode.dir true (FSDir.cons "b" (FSNode.file [1, 2])
      (FSDir.cons "m" (FSNode.file [1]) FSDir.nil)))
    (FSDir.cons "r2"
      (FSNode.dir true (FSDir.cons "d" (FSNode.file [1, 2, 3])
        (FSDir.cons "m" (FSNode.file [2]) FSDir.nil)))
      FSDir.nil))

/-- Concrete instance of Claim C7, applying its size-resolution parts to
the added entry `d` (size under the second root), the deleted entry `b`
(size under the first root) and the modified entry `m` (both sizes). -/
theorem claimC7_witness :
    (⟨["d"], 3⟩ : DirectoryEntry).Size = GetSize fsC7 (["r2"] ++ ["d"]) ∧
    (⟨["b"], 2⟩ : DirectoryEntry).Size = GetSize fsC7 (["r1"] ++ ["b"]) ∧
    (⟨["m"], 1, 1⟩ : EntryDiff).Size1 = GetSize fsC7 (["r1"] ++ ["m"]) ∧
    (⟨["m"], 1, 1⟩ : EntryDiff).Size2 = GetSize fsC7 (["r2"] ++ ["m"]) := by
  have h := claimC7 fsC7 (fun _ => false) ⟨["r1"], [["b"], ["m"]]⟩
    ⟨["r2"], [["d"], ["m"]]⟩
  refine ⟨h.2.1 ⟨["d"], 3⟩ (by decide), h.2.2.2.1 ⟨["b"], 2⟩ (by decide),
    (h.2.2.2.2.2 ⟨["m"], 1, 1⟩ (by decide)).1,
    (h.2.2.2.2.2 ⟨["m"], 1, 1⟩ (by decide)).2⟩

/-- A multi-version analyzer whose fetch always fails. -/
def dmFail : MultiVersionPackageAnalyzer String Nat :=
  ⟨fun _ => Except.error "boom", "aptAnalyzer"⟩

/-- A second failing multi-version analyzer with a different name and a
different payload type behaviour, failing identically on `i1`. -/
def dmFail2 : MultiVersionPackageAnalyzer String Nat :=
  ⟨fun i => if i.Source = "i1" then Except.error "boom" else Except.ok 42,
    "otherAnalyzer"⟩

/-- A single-version analyzer whose fetches succeed. -/
def dsOk : SingleVersionPackageAnalyzer String Nat :=
  ⟨fun i => Except.ok (if i.Source = "i1" then 2 else 3), "pipAnalyzer"⟩

/-- A single-version analyzer whose fetch always fails. -/
def dsFail : SingleVersionPackageAnalyzer String Nat :=
  ⟨fun _ => Except.error "bam", "pipAnalyzer"⟩

/-- Concrete instance of Claim C3: a failing multi-version fetch yields
the zero-value struct with the fetch error, and a successful
single-version diff yields the labelled result with the computed diff
and no error. -/
theorem claimC3_witness :
    multiVersionDiff (fun a b : Nat => a + b) ⟨"i1"⟩ ⟨"i2"⟩ dmFail =
      (some ⟨"", "", "", 0⟩, some "boom") ∧
    singleVersionDiff (fun a b : Nat => a + b) ⟨"i1"⟩ ⟨"i2"⟩ dsOk =
      (some ⟨"i1", "i2", "pip", 5⟩, none) := by
  have h := claimC3 (fun a b : Nat => a + b) ⟨"i1"⟩ ⟨"i2"⟩ dmFail dsOk
  exact ⟨h.1 "boom" rfl, h.2.2.2.2.2.1 2 3 rfl rfl⟩

/-- Concrete instance of Claim C10: with first fetches failing, both
invocation traces are exactly `[i1]`, and the result is unchanged when
the analyzer is replaced by one that behaves differently on `i2`. -/
theorem claimC10_witness :
    multiVersionDiffCalls ⟨"i1"⟩ ⟨"i2"⟩ dmFail = [⟨"i1"⟩] ∧
    singleVersionDiffCalls ⟨"i1"⟩ ⟨"i2"⟩ dsFail = [⟨"i1"⟩] ∧
    multiVersionDiff (fun a b : Nat => a + b) ⟨"i1"⟩ ⟨"i2"⟩ dmFail2 =
      multiVersionDiff (fun a b : Nat => a + b) ⟨"i1"⟩ ⟨"i2"⟩ dmFail := by
  have h := claimC10 (fun a b : Nat => a + b) ⟨"i1"⟩ ⟨"i2"⟩ dmFail dsFail
    "boom" "bam" rfl rfl
  exact ⟨h.1, h.2.1, h.2.2.1 dmFail2 rfl⟩
